import Mathlib

/-!
# Verification of the docker-dns caching resolver and DNS suffix handler

A shallow embedding of the Rust sources of the docker-dns repository
(src/resolver.rs, src/custom_handler.rs, src/docker_client.rs,
src/strip_prefix_sane.rs) together with proofs about the embedded
functions.

Strings are modelled as lists of characters (`Str`); the Rust string
operations used by the code (trim_end_matches, ends_with, slicing,
strip_prefix) are character-sequence operations, so this model is
faithful.  Time is modelled by explicit natural-number instants passed
to each operation; `Instant::elapsed` becomes truncated subtraction
(an `Instant` is never in the future).  The asynchronous inventory
fetch of a refresh is modelled by an explicit argument of type
`Option (List NetworkInfo)`: `some infos` stands for the provider
returning `Ok(infos)` within `refresh_timeout`, `none` stands for a
provider error or for the expiry of the `tokio::time::timeout` wall
clock bound (both produce an `Err` at the same program point, before
the cache is touched).
-/

set_option autoImplicit false

/-- Rust `str` / `String`, modelled as its sequence of characters. -/
abbrev Str := List Char

/-- `std::net::Ipv4Addr`: only its identity matters for the claims. -/
structure Ipv4Addr where
  val : Nat
deriving DecidableEq, Repr

/-- `std::net::Ipv6Addr`: only its identity matters for the claims. -/
structure Ipv6Addr where
  val : Nat
deriving DecidableEq, Repr

/-- `DnsResponse` (src/resolver.rs): one container's address lists. -/
structure DnsResponse where
  ipv4_addresses : List Ipv4Addr
  ipv6_addresses : List Ipv6Addr
deriving DecidableEq, Repr

/-- `NetworkInfo` (src/docker_client.rs): names plus address lists of
one container as returned by the inventory provider. -/
structure NetworkInfo where
  names : List Str
  ipv4_addresses : List Ipv4Addr
  ipv6_addresses : List Ipv6Addr
deriving DecidableEq, Repr

/-- The cache's `HashMap<String, Arc<DnsResponse>>`, modelled
extensionally as a partial map from names to responses.  `Arc`
sharing is a memory-layout matter; value equality is what the claims
speak about. -/
abbrev Mapping := Str → Option DnsResponse

/-- `DockerResolverConfig` (src/resolver.rs).  Durations in abstract
time units. -/
structure DockerResolverConfig where
  hit_timeout : Nat
  miss_timeout : Nat
  refresh_timeout : Nat
deriving DecidableEq, Repr

/-- `CachedNetworkData` (src/resolver.rs). -/
structure CachedNetworkData where
  mappings : Mapping
  last_refresh : Option Nat

/-- `CachedNetworkData::new`: empty mapping, no refresh yet. -/
def CachedNetworkData.new : CachedNetworkData :=
  { mappings := fun _ => none, last_refresh := none }

/-- `CachedNetworkData::is_older_than`: `None` means never refreshed,
hence old; otherwise compare the elapsed time with the duration
(strictly greater, as in `instant.elapsed() > duration`). -/
def CachedNetworkData.is_older_than (cache : CachedNetworkData) (now : Nat)
    (duration : Nat) : Bool :=
  match cache.last_refresh with
  | none => true
  | some instant => now - instant > duration

/-- The body of the name loop of
`DockerResolver::fetch_and_build_mappings`: insert every name of one
record, all pointing at that record's response.  `HashMap::insert`
overwrites, which function update models. -/
def insertInfo (m : Mapping) (info : NetworkInfo) : Mapping :=
  info.names.foldl
    (fun acc name =>
      fun k => if k = name then some ⟨info.ipv4_addresses, info.ipv6_addresses⟩ else acc k)
    m

/-- `DockerResolver::fetch_and_build_mappings` (src/resolver.rs) applied
to the provider's records: start from an empty map and insert each
record's names in order. -/
def fetch_and_build_mappings (infos : List NetworkInfo) : Mapping :=
  infos.foldl insertInfo (fun _ => none)

/-- The fetch-and-store part of `DockerResolver::refresh_cache`: on a
provider error or refresh timeout (`fetch = none`) the cache is left
untouched and the error is reported (`false`); on success the mapping
is replaced wholesale and `last_refresh` is set.  The returned `Bool`
is `Ok`/`Err` of the Rust function. -/
def refresh_fetch (cache : CachedNetworkData) (now : Nat)
    (fetch : Option (List NetworkInfo)) : CachedNetworkData × Bool :=
  match fetch with
  | none => (cache, false)
  | some infos => ({ mappings := fetch_and_build_mappings infos, last_refresh := some now }, true)

/-- `DockerResolver::refresh_cache` (src/resolver.rs): after taking the
write lock, re-check the timestamp (a refresh that raced ahead makes
this one a no-op returning `Ok`), then fetch within `refresh_timeout`
and replace the mapping. -/
def refresh_cache (cfg : DockerResolverConfig) (cache : CachedNetworkData) (now : Nat)
    (fetch : Option (List NetworkInfo)) : CachedNetworkData × Bool :=
  match cache.last_refresh with
  | some last_refresh =>
    if now - last_refresh < cfg.miss_timeout then (cache, true)
    else refresh_fetch cache now fetch
  | none => refresh_fetch cache now fetch

/-- `DockerResolver::read_cache` (src/resolver.rs): the cached entry for
the domain together with the two staleness flags. -/
def read_cache (cfg : DockerResolverConfig) (cache : CachedNetworkData) (now : Nat)
    (domain : Str) : Option DnsResponse × Bool × Bool :=
  (cache.mappings domain,
   cache.is_older_than now cfg.hit_timeout,
   cache.is_older_than now cfg.miss_timeout)

/-- `DockerResolver::get_refreshed_cache_entry` (src/resolver.rs): run a
refresh, swallow (log) any error, then read the current mapping.
Returns the looked-up entry and the cache state afterwards. -/
def get_refreshed_cache_entry (cfg : DockerResolverConfig) (cache : CachedNetworkData)
    (now : Nat) (fetch : Option (List NetworkInfo)) (domain : Str) :
    Option DnsResponse × CachedNetworkData :=
  ((refresh_cache cfg cache now fetch).1.mappings domain, (refresh_cache cfg cache now fetch).1)

/-- `DockerResolver::resolve_async` (src/resolver.rs).  Result of the
lookup, cache state afterwards, and whether a refresh was attempted.
The four match arms are those of the source, in source order. -/
def resolve_async (cfg : DockerResolverConfig) (cache : CachedNetworkData) (now : Nat)
    (fetch : Option (List NetworkInfo)) (domain : Str) :
    Option DnsResponse × CachedNetworkData × Bool :=
  match read_cache cfg cache now domain with
  | (some response, false, _) => (some response, cache, false)
  | (_, true, _) =>
    ((get_refreshed_cache_entry cfg cache now fetch domain).1,
     (get_refreshed_cache_entry cfg cache now fetch domain).2, true)
  | (none, false, false) => (none, cache, false)
  | (none, _, true) =>
    ((get_refreshed_cache_entry cfg cache now fetch domain).1,
     (get_refreshed_cache_entry cfg cache now fetch domain).2, true)

/-- `DockerResolver::resolve` (the `DnsResolver` impl, src/resolver.rs)
just forwards to `resolve_async`; no rewriting of the domain happens
there. -/
def DockerResolver.resolve (cfg : DockerResolverConfig) (cache : CachedNetworkData)
    (now : Nat) (fetch : Option (List NetworkInfo)) (domain : Str) :
    Option DnsResponse × CachedNetworkData × Bool :=
  resolve_async cfg cache now fetch domain

/-- One resolver invocation as seen by a trace: the instant, the fetch
outcome a refresh at that instant would observe, and the queried
domain. -/
structure ResolveStep where
  now : Nat
  fetch : Option (List NetworkInfo)
  domain : Str

/-- Fold a sequence of `resolve` calls over the cache state. -/
def runResolves (cfg : DockerResolverConfig) (init : CachedNetworkData)
    (steps : List ResolveStep) : CachedNetworkData :=
  steps.foldl (fun c s => (resolve_async cfg c s.now s.fetch s.domain).2.1) init

/-! ## The DNS query handler (src/custom_handler.rs) -/

/-- `DNS_UDP_MAX_SIZE` (src/custom_handler.rs). -/
def DNS_UDP_MAX_SIZE : Nat := 512

/-- `DNS_OVERHEAD_ESTIMATE` (src/custom_handler.rs). -/
def DNS_OVERHEAD_ESTIMATE : Nat := 50

/-- The query type as matched by `handle_query`: `A`, `AAAA`, and the
wildcard arm that collects every other record type. -/
inductive QueryType where
  | A
  | AAAA
  | Other
deriving DecidableEq, Repr

/-- The `RData` payloads the handler builds (`RData::A`, `RData::AAAA`);
the wildcard arm of `apply_size_limit` is kept for fidelity. -/
inductive RDataV where
  | A (addr : Ipv4Addr)
  | AAAA (addr : Ipv6Addr)
deriving DecidableEq, Repr

/-- One answer `Record` as built by `Record::from_rdata(query_name,
ttl, rdata)`. -/
structure DnsRecord where
  name : Str
  ttl : Nat
  rdata : RDataV
deriving DecidableEq, Repr

/-- The DNS response codes the handler sets. -/
inductive ResponseCode where
  | NoError
  | NXDomain
  | Refused
deriving DecidableEq, Repr

/-- The observable outcome of `handle_query`: response code, AA flag,
answer records, and the TC (truncated) flag of the header.
`Header::response_from_request` starts with TC unset and the handler
never sets it. -/
structure HandlerResponse where
  rcode : ResponseCode
  authoritative : Bool
  answers : List DnsRecord
  truncated : Bool
deriving DecidableEq, Repr

/-- `CustomHandler::normalize_domain` (src/custom_handler.rs):
`name.trim_end_matches('.')`, i.e. remove every trailing dot.  Note:
this is the whole normalization; no case folding happens here. -/
def normalize_domain (name : Str) : Str :=
  (name.reverse.dropWhile (fun c => c = '.')).reverse

/-- `CustomHandler::strip_suffix` (src/custom_handler.rs): with an
empty configured suffix accept everything; otherwise accept exactly
the domains that end with the suffix and strip it, as
`&domain[..domain.len() - suffix.len()]` does. -/
def strip_suffix (sfx : Str) (domain : Str) : Option Str :=
  if sfx = [] then some domain
  else if sfx.isSuffixOf domain then some (domain.take (domain.length - sfx.length))
  else none

/-- The per-record size estimate of `apply_size_limit`:
2+2+2+4+2+4 = 16 bytes for an A record, 2+2+2+4+2+16 = 28 bytes for an
AAAA record. -/
def record_size (r : DnsRecord) : Nat :=
  match r.rdata with
  | .A _ => 2 + 2 + 2 + 4 + 2 + 4
  | .AAAA _ => 2 + 2 + 2 + 4 + 2 + 16

/-- The record loop of `CustomHandler::apply_size_limit`: keep records
while the running size estimate stays within the budget; `break` on
the first record that would exceed it. -/
def size_limit_go (available_space : Nat) : List DnsRecord → Nat → List DnsRecord
  | [], _ => []
  | record :: rest, current_size =>
    if current_size + record_size record > available_space then []
    else record :: size_limit_go available_space rest (current_size + record_size record)

set_option linter.unusedVariables false in
/-- `CustomHandler::apply_size_limit` (src/custom_handler.rs).  The
`domain` argument is only used for the truncation log line. -/
def apply_size_limit (records : List DnsRecord) (domain : Str) (query_name_len : Nat) :
    List DnsRecord :=
  if records.isEmpty then records
  else
    let available_space := DNS_UDP_MAX_SIZE - (DNS_OVERHEAD_ESTIMATE + query_name_len)
    size_limit_go available_space records 0

/-- `CustomHandler::handle_query` (src/custom_handler.rs), observable
part.  The resolver is abstracted as a pure lookup (`Arc<dyn
DnsResolver>`); `query_name` is the textual question name as delivered
by the DNS library, `query_name_len` its `len()`.  The record-building
`match` on the query type and the rcode/AA decisions follow the source
line by line. -/
def handle_query (sfx : Str) (ttl : Nat) (resolver : Str → Option DnsResponse)
    (query_name : Str) (query_name_len : Nat) (query_type : QueryType) :
    HandlerResponse :=
  let domain := normalize_domain query_name
  match strip_suffix sfx domain with
  | some container_name =>
    match resolver container_name with
    | some dns_response =>
      let records : List DnsRecord :=
        match query_type with
        | .A => dns_response.ipv4_addresses.map (fun ipv4 => ⟨query_name, ttl, .A ipv4⟩)
        | .AAAA => dns_response.ipv6_addresses.map (fun ipv6 => ⟨query_name, ttl, .AAAA ipv6⟩)
        | .Other => []
      { rcode := .NoError, authoritative := true,
        answers := apply_size_limit records domain query_name_len, truncated := false }
    | none =>
      { rcode := .NXDomain, authoritative := false, answers := [], truncated := false }
  | none =>
    { rcode := .Refused, authoritative := false, answers := [], truncated := false }

/-! ## The inventory provider (src/docker_client.rs,
src/strip_prefix_sane.rs)

The IP-address text parsers of the standard library
(`str::parse::<Ipv4Addr>`, `str::parse::<Ipv6Addr>`) are external
code; they are abstracted as arbitrary functions `std_parse_v4` /
`std_parse_v6` from strings to optional addresses, and every theorem
about the provider is proved for all of them. -/

/-- `bollard::secret::EndpointSettings`, the two fields read by the
code. -/
structure EndpointSettings where
  ip_address : Option Str
  global_ipv6_address : Option Str
deriving DecidableEq, Repr

/-- `bollard::secret::NetworkSettings`, the one field read by the
code: an optional map from network name to endpoint settings,
modelled as its entry list. -/
structure NetworkSettings where
  networks : Option (List (Str × EndpointSettings))
deriving DecidableEq, Repr

/-- `bollard::secret::ContainerSummary`, the two fields read by the
code. -/
structure ContainerSummary where
  names : Option (List Str)
  network_settings : Option NetworkSettings
deriving DecidableEq, Repr

/-- `parse_ipv4` (src/docker_client.rs): an empty string is rejected
up front, everything else goes to the standard library parser. -/
def parse_ipv4 (std_parse_v4 : Str → Option Ipv4Addr) (ip_str : Str) : Option Ipv4Addr :=
  if ip_str = [] then none
  else std_parse_v4 ip_str

/-- `parse_ipv6` (src/docker_client.rs): an empty string is rejected
up front, everything else goes to the standard library parser. -/
def parse_ipv6 (std_parse_v6 : Str → Option Ipv6Addr) (ip_str : Str) : Option Ipv6Addr :=
  if ip_str = [] then none
  else std_parse_v6 ip_str

/-- The endpoint loop of `get_ip_addresses` (src/docker_client.rs):
`endpoint.ip_address.as_deref().and_then(parse_ipv4)` pushes onto the
IPv4 list, and analogously for IPv6.  The loop pushes to the back of
two vectors; building front-to-back by structural recursion produces
the same lists in the same order. -/
def get_ip_addresses_loop (std_parse_v4 : Str → Option Ipv4Addr)
    (std_parse_v6 : Str → Option Ipv6Addr) :
    List (Str × EndpointSettings) → List Ipv4Addr × List Ipv6Addr
  | [] => ([], [])
  | endpointEntry :: rest =>
    ((match endpointEntry.2.ip_address.bind (parse_ipv4 std_parse_v4) with
      | some ipv4 => ipv4 :: (get_ip_addresses_loop std_parse_v4 std_parse_v6 rest).1
      | none => (get_ip_addresses_loop std_parse_v4 std_parse_v6 rest).1),
     (match endpointEntry.2.global_ipv6_address.bind (parse_ipv6 std_parse_v6) with
      | some ipv6 => ipv6 :: (get_ip_addresses_loop std_parse_v4 std_parse_v6 rest).2
      | none => (get_ip_addresses_loop std_parse_v4 std_parse_v6 rest).2))

/-- `get_ip_addresses` (src/docker_client.rs): `let Some(settings)` and
`let Some(networks_data)` guards, then the endpoint loop.  Total: it
cannot fail, whatever the address strings contain. -/
def get_ip_addresses (std_parse_v4 : Str → Option Ipv4Addr)
    (std_parse_v6 : Str → Option Ipv6Addr) (container : ContainerSummary) :
    List Ipv4Addr × List Ipv6Addr :=
  match container.network_settings with
  | none => ([], [])
  | some settings =>
    match settings.networks with
    | none => ([], [])
    | some networks_data => get_ip_addresses_loop std_parse_v4 std_parse_v6 networks_data

/-- `SaneStrip::strip_prefix_sane` (src/strip_prefix_sane.rs): Rust
`str::strip_prefix` returns the remainder when the string starts with
the given prefix, and the sane variant falls back to the unchanged
string otherwise. -/
def strip_prefix_sane (s : Str) (p : Str) : Str :=
  if p.isPrefixOf s then s.drop p.length else s

/-- `get_names` (src/docker_client.rs): strip the leading `/` the
Docker daemon puts on container names; a missing name list yields
an empty one. -/
def get_names (container : ContainerSummary) : List Str :=
  match container.names with
  | some names => names.map (fun name => strip_prefix_sane name "/".data)
  | none => []

/-- The container loop of `DockerClient::list_containers_network_info`
(src/docker_client.rs): a container is pushed onto the result exactly
when at least one of its address lists is non-empty (`if
!ipv4_addresses.is_empty() || !ipv6_addresses.is_empty()`); again a
push-to-the-back loop built front-to-back. -/
def collect_network_infos (std_parse_v4 : Str → Option Ipv4Addr)
    (std_parse_v6 : Str → Option Ipv6Addr) :
    List ContainerSummary → List NetworkInfo
  | [] => []
  | container :: rest =>
    if (get_ip_addresses std_parse_v4 std_parse_v6 container).1 ≠ [] ∨
        (get_ip_addresses std_parse_v4 std_parse_v6 container).2 ≠ [] then
      { names := get_names container,
        ipv4_addresses := (get_ip_addresses std_parse_v4 std_parse_v6 container).1,
        ipv6_addresses := (get_ip_addresses std_parse_v4 std_parse_v6 container).2 }
        :: collect_network_infos std_parse_v4 std_parse_v6 rest
    else collect_network_infos std_parse_v4 std_parse_v6 rest

/-- `DockerClient::list_containers_network_info` (src/docker_client.rs):
errors come only from the docker `list_containers` call (the `Except`
argument, with `.context("Failed to list containers")`); on a
successful listing the container loop runs and the function returns
`Ok`. -/
def list_containers_network_info (std_parse_v4 : Str → Option Ipv4Addr)
    (std_parse_v6 : Str → Option Ipv6Addr)
    (list_containers : Except String (List ContainerSummary)) :
    Except String (List NetworkInfo) := do
  let containers ← list_containers
  pure (collect_network_infos std_parse_v4 std_parse_v6 containers)

/-! ## Helper lemmas -/

theorem refresh_cache_none_fst (cfg : DockerResolverConfig) (cache : CachedNetworkData)
    (now : Nat) : (refresh_cache cfg cache now none).1 = cache := by
  unfold refresh_cache refresh_fetch
  cases cache.last_refresh with
  | none => rfl
  | some t => by_cases h : now - t < cfg.miss_timeout <;> simp [h]

/-- Estimated size of a record list: the sum of the per-record
estimates. -/
def sizeSum (rs : List DnsRecord) : Nat := (rs.map record_size).sum

@[simp] theorem sizeSum_nil : sizeSum [] = 0 := rfl

@[simp] theorem sizeSum_cons (r : DnsRecord) (rs : List DnsRecord) :
    sizeSum (r :: rs) = record_size r + sizeSum rs := rfl

theorem size_limit_go_isPrefix (a : Nat) :
    ∀ (rs : List DnsRecord) (cur : Nat), size_limit_go a rs cur <+: rs := by
  intro rs
  induction rs with
  | nil => intro cur; simp [size_limit_go]
  | cons r rest ih =>
    intro cur
    unfold size_limit_go
    by_cases h : cur + record_size r > a
    · simp [h]
    · simp only [h, if_false]
      rcases ih (cur + record_size r) with ⟨t, ht⟩
      exact ⟨t, by simp [ht]⟩

theorem size_limit_go_size (a : Nat) :
    ∀ (rs : List DnsRecord) (cur : Nat), cur ≤ a →
      cur + sizeSum (size_limit_go a rs cur) ≤ a := by
  intro rs
  induction rs with
  | nil => intro cur hc; simpa [size_limit_go] using hc
  | cons r rest ih =>
    intro cur hc
    unfold size_limit_go
    by_cases h : cur + record_size r > a
    · simpa [h] using hc
    · have := ih (cur + record_size r) (by omega)
      simp only [h, if_false, sizeSum_cons]
      omega

theorem size_limit_go_maximal (a : Nat) :
    ∀ (rs : List DnsRecord) (cur : Nat),
      (size_limit_go a rs cur).length = rs.length ∨
        cur + sizeSum (rs.take ((size_limit_go a rs cur).length + 1)) > a := by
  intro rs
  induction rs with
  | nil => intro cur; left; rfl
  | cons r rest ih =>
    intro cur
    unfold size_limit_go
    by_cases h : cur + record_size r > a
    · right
      simp only [List.take_succ_cons, List.take_zero, sizeSum_cons, sizeSum_nil]
      omega
    · simp only [h, if_false]
      rcases ih (cur + record_size r) with h1 | h2
      · left; simp [h1]
      · right
        simp only [List.length_cons, List.take_succ_cons, sizeSum_cons]
        omega

theorem size_limit_go_all (a : Nat) :
    ∀ (rs : List DnsRecord) (cur : Nat), cur + sizeSum rs ≤ a →
      size_limit_go a rs cur = rs := by
  intro rs
  induction rs with
  | nil => intro cur _; rfl
  | cons r rest ih =>
    intro cur hc
    simp only [sizeSum_cons] at hc
    unfold size_limit_go
    have h : ¬ cur + record_size r > a := by omega
    simp only [h, if_false]
    rw [ih (cur + record_size r) (by omega)]

theorem apply_size_limit_eq (rs : List DnsRecord) (domain : Str) (q : Nat) :
    apply_size_limit rs domain q
      = size_limit_go (DNS_UDP_MAX_SIZE - (DNS_OVERHEAD_ESTIMATE + q)) rs 0 := by
  cases rs <;> simp [apply_size_limit, size_limit_go]

theorem handle_query_truncated_false (sfx : Str) (ttl : Nat)
    (resolver : Str → Option DnsResponse) (qn : Str) (qlen : Nat) (qt : QueryType) :
    (handle_query sfx ttl resolver qn qlen qt).truncated = false := by
  unfold handle_query
  rcases h : strip_suffix sfx (normalize_domain qn) with _ | name
  · simp [h]
  · rcases hr : resolver name with _ | resp <;> simp [h, hr]

/-! ## Claim theorems -/

/-- Claim C2: a failed or timed-out inventory fetch (`fetch = none`
covers both the provider returning an error and the expiry of the
`refresh_timeout` wall clock) leaves the cache mapping and the
`last_refresh` timestamp exactly as they were, the error is swallowed
rather than propagated (the result type carries no error), and
`resolve` returns whatever the pre-refresh cache contains for the
queried name, possibly `none`. -/
theorem claim_C2 (cfg : DockerResolverConfig) (cache : CachedNetworkData) (now : Nat)
    (domain : Str) :
    (resolve_async cfg cache now none domain).2.1 = cache ∧
    (resolve_async cfg cache now none domain).1 = cache.mappings domain := by
  have hrc := refresh_cache_none_fst cfg cache now
  unfold resolve_async get_refreshed_cache_entry read_cache
  cases hm : cache.mappings domain <;>
    cases h1 : cache.is_older_than now cfg.hit_timeout <;>
      cases h2 : cache.is_older_than now cfg.miss_timeout <;>
        simp [hm, h1, h2, hrc]

/-- Claim C6: `apply_size_limit` keeps exactly the longest prefix of
the record list, in iteration order, whose cumulative estimated size
(16 bytes per A record, 28 bytes per AAAA record) stays within
512 minus (50 plus the question name length); all records are kept
when they all fit, and the handler never sets the TC bit. -/
theorem claim_C6 (records : List DnsRecord) (domain : Str) (query_name_len : Nat) :
    apply_size_limit records domain query_name_len <+: records ∧
    sizeSum (apply_size_limit records domain query_name_len)
      ≤ DNS_UDP_MAX_SIZE - (DNS_OVERHEAD_ESTIMATE + query_name_len) ∧
    ((apply_size_limit records domain query_name_len).length = records.length ∨
      sizeSum (records.take ((apply_size_limit records domain query_name_len).length + 1))
        > DNS_UDP_MAX_SIZE - (DNS_OVERHEAD_ESTIMATE + query_name_len)) ∧
    (sizeSum records ≤ DNS_UDP_MAX_SIZE - (DNS_OVERHEAD_ESTIMATE + query_name_len) →
      apply_size_limit records domain query_name_len = records) ∧
    (∀ (sfx : Str) (ttl : Nat) (resolver : Str → Option DnsResponse) (qt : QueryType),
      (handle_query sfx ttl resolver domain query_name_len qt).truncated = false) := by
  rw [apply_size_limit_eq]
  refine ⟨size_limit_go_isPrefix _ records 0, ?_, ?_, ?_, ?_⟩
  · simpa using size_limit_go_size _ records 0 (Nat.zero_le _)
  · simpa using size_limit_go_maximal _ records 0
  · intro h
    exact size_limit_go_all _ records 0 (by simpa using h)
  · intro sfx ttl resolver qt
    exact handle_query_truncated_false sfx ttl resolver domain query_name_len qt

/-- Witness for C6 at concrete inputs: a single A record fits a large
budget and is kept in full; three A records against a budget of 32
bytes (question name length 430) keep within the budget. -/
theorem claim_C6_witness :
    apply_size_limit [⟨"q".data, 60, .A ⟨1⟩⟩] "q".data 0 = [⟨"q".data, 60, .A ⟨1⟩⟩] ∧
    sizeSum (apply_size_limit
        [⟨"q".data, 60, .A ⟨1⟩⟩, ⟨"q".data, 60, .A ⟨2⟩⟩, ⟨"q".data, 60, .A ⟨3⟩⟩]
        "q".data 430)
      ≤ DNS_UDP_MAX_SIZE - (DNS_OVERHEAD_ESTIMATE + 430) :=
  ⟨(claim_C6 [⟨"q".data, 60, .A ⟨1⟩⟩] "q".data 0).2.2.2.1 (by decide),
   (claim_C6 [⟨"q".data, 60, .A ⟨1⟩⟩, ⟨"q".data, 60, .A ⟨2⟩⟩, ⟨"q".data, 60, .A ⟨3⟩⟩]
      "q".data 430).2.1⟩

theorem is_older_than_mono (cache : CachedNetworkData) (now : Nat) {d1 d2 : Nat}
    (hd : d1 ≤ d2) (h : cache.is_older_than now d2 = true) :
    cache.is_older_than now d1 = true := by
  unfold CachedNetworkData.is_older_than at h ⊢
  cases hl : cache.last_refresh with
  | none => rfl
  | some t =>
    rw [hl] at h
    simp only [decide_eq_true_eq] at h ⊢
    omega

/-- Claim C1: the refresh decision matrix of `resolve_async`, under the
configuration requirement `miss_timeout ≤ hit_timeout` stated by the
spec's data model.  A fresh hit is answered from the cache with no
refresh; a miss within `miss_timeout` returns `none` with no refresh;
in every other case (hit older than `hit_timeout`, miss older than
`miss_timeout`, or `last_refresh` unset, which makes both staleness
flags true) a refresh is attempted and the then-current mapping's
entry (or `none`) is returned. -/
theorem claim_C1 (cfg : DockerResolverConfig) (cache : CachedNetworkData) (now : Nat)
    (fetch : Option (List NetworkInfo)) (domain : Str)
    (hcfg : cfg.miss_timeout ≤ cfg.hit_timeout) :
    (∀ r, cache.mappings domain = some r →
      cache.is_older_than now cfg.hit_timeout = false →
      resolve_async cfg cache now fetch domain = (some r, cache, false)) ∧
    (cache.mappings domain = none →
      cache.is_older_than now cfg.miss_timeout = false →
      resolve_async cfg cache now fetch domain = (none, cache, false)) ∧
    ((cache.mappings domain ≠ none ∧ cache.is_older_than now cfg.hit_timeout = true) ∨
      (cache.mappings domain = none ∧ cache.is_older_than now cfg.miss_timeout = true) →
      (resolve_async cfg cache now fetch domain).2.2 = true ∧
      (resolve_async cfg cache now fetch domain).2.1 = (refresh_cache cfg cache now fetch).1 ∧
      (resolve_async cfg cache now fetch domain).1
        = (refresh_cache cfg cache now fetch).1.mappings domain) := by
  refine ⟨?_, ?_, ?_⟩
  · intro r hm hh
    cases h2 : cache.is_older_than now cfg.miss_timeout <;>
      simp [resolve_async, read_cache, hm, hh, h2]
  · intro hm hmiss
    have hh : cache.is_older_than now cfg.hit_timeout = false := by
      cases hht : cache.is_older_than now cfg.hit_timeout
      · rfl
      · rw [is_older_than_mono cache now hcfg hht] at hmiss
        exact hmiss
    simp [resolve_async, read_cache, hm, hh, hmiss]
  · intro h
    rcases h with ⟨hm, hh⟩ | ⟨hm, hmiss⟩
    · rcases hm' : cache.mappings domain with _ | r
      · exact absurd hm' hm
      · cases h2 : cache.is_older_than now cfg.miss_timeout <;>
          simp [resolve_async, read_cache, get_refreshed_cache_entry, hm', hh, h2]
    · cases hht : cache.is_older_than now cfg.hit_timeout <;>
        simp [resolve_async, read_cache, get_refreshed_cache_entry, hm, hht, hmiss]

/-- Witness for C1 at a concrete input: first query against a
never-refreshed cache, so a refresh is attempted and its result is
served. -/
theorem claim_C1_witness :
    (resolve_async ⟨60, 5, 5⟩ CachedNetworkData.new 0
        (some [⟨["web".data], [⟨1⟩], []⟩]) "web".data).2.2 = true ∧
    (resolve_async ⟨60, 5, 5⟩ CachedNetworkData.new 0
        (some [⟨["web".data], [⟨1⟩], []⟩]) "web".data).1
      = (refresh_cache ⟨60, 5, 5⟩ CachedNetworkData.new 0
          (some [⟨["web".data], [⟨1⟩], []⟩])).1.mappings "web".data :=
  have h := (claim_C1 ⟨60, 5, 5⟩ CachedNetworkData.new 0
      (some [⟨["web".data], [⟨1⟩], []⟩]) "web".data (by decide)).2.2
    (Or.inr ⟨by decide, by decide⟩)
  ⟨h.1, h.2.2⟩

theorem head?_dropWhile_dot : ∀ (l : Str), (l.dropWhile (fun c => c = '.')).head? ≠ some '.' := by
  intro l
  induction l with
  | nil => simp
  | cons c t ih =>
    by_cases h : c = '.'
    · simpa [List.dropWhile_cons, h] using ih
    · simp [List.dropWhile_cons, h]

theorem normalize_domain_trailing (name : Str) :
    ∃ k, normalize_domain name ++ List.replicate k '.' = name := by
  refine ⟨(name.reverse.takeWhile (fun c => c = '.')).length, ?_⟩
  unfold normalize_domain
  conv_rhs =>
    rw [← List.reverse_reverse name,
      ← List.takeWhile_append_dropWhile (p := fun c => c = '.') (l := name.reverse),
      List.reverse_append]
  congr 1
  have hmem : ∀ b ∈ name.reverse.takeWhile (fun c => c = '.'), b = '.' := by
    intro b hb
    simpa using List.mem_takeWhile_imp hb
  rw [List.eq_replicate_of_mem hmem, List.reverse_replicate, List.length_replicate]

/-- Counterexample to claim C3: the code's `normalize_domain` strips
the trailing dot but performs no lower-casing, and a resolver entry
keyed by the lower-case name is not found under the upper-case query
name: the two case-variants of the same name produce different lookup
keys and different response codes. -/
theorem claim_C3_counterexample :
    normalize_domain "WEB.".data = "WEB".data ∧
    "WEB".data ≠ "web".data ∧
    (handle_query [] 60 (fun s => if s = "web".data then some ⟨[⟨1⟩], []⟩ else none)
        "WEB.".data 4 .A).rcode = .NXDomain ∧
    (handle_query [] 60 (fun s => if s = "web".data then some ⟨[⟨1⟩], []⟩ else none)
        "web.".data 4 .A).rcode = .NoError := by
  decide

/-- Claim C3 as amended: the question name is normalized by stripping
every trailing dot and nothing else before the suffix check and the
resolver lookup — the normalized name is literally an initial segment
of the delivered name (so letter case is preserved; no lower-casing
happens in this code), it carries no trailing dot, and the resolver
entry point forwards the name to the lookup unchanged. -/
theorem claim_C3_amended (name : Str) :
    (∃ k, normalize_domain name ++ List.replicate k '.' = name) ∧
    (normalize_domain name).getLast? ≠ some '.' ∧
    ∀ (cfg : DockerResolverConfig) (cache : CachedNetworkData) (now : Nat)
      (fetch : Option (List NetworkInfo)),
      DockerResolver.resolve cfg cache now fetch name = resolve_async cfg cache now fetch name := by
  refine ⟨normalize_domain_trailing name, ?_, fun _ _ _ _ => rfl⟩
  unfold normalize_domain
  rw [List.getLast?_reverse]
  exact head?_dropWhile_dot name.reverse

/-- Witness for the amended C3 at a concrete input. -/
theorem claim_C3_amended_witness :
    (∃ k, normalize_domain "a.B..".data ++ List.replicate k '.' = "a.B..".data) ∧
    (normalize_domain "a.B..".data).getLast? ≠ some '.' :=
  ⟨(claim_C3_amended "a.B..".data).1, (claim_C3_amended "a.B..".data).2.1⟩

/-- Counterexample to claim C4: a query of a type other than A or AAAA
for a name that does not resolve is answered with `NXDomain`, not with
`NoError`, because the resolver lookup happens before the query-type
match. -/
theorem claim_C4_counterexample :
    (handle_query [] 60 (fun _ => none) "nope".data 4 .Other).rcode = .NXDomain ∧
    (handle_query [] 60 (fun _ => none) "nope".data 4 .Other).rcode ≠ .NoError := by
  decide

/-- Claim C4 as amended: for a query whose type is neither A nor AAAA,
if the looked-up name resolves the handler answers `NoError` with an
empty answer section (and the AA flag set); if the name does not
resolve, the handler answers `NXDomain` exactly as for an A or AAAA
query. -/
theorem claim_C4_amended (sfx : Str) (ttl : Nat) (resolver : Str → Option DnsResponse)
    (qn : Str) (qlen : Nat) (key : Str)
    (hstrip : strip_suffix sfx (normalize_domain qn) = some key) :
    (∀ resp, resolver key = some resp →
      handle_query sfx ttl resolver qn qlen .Other
        = { rcode := .NoError, authoritative := true, answers := [], truncated := false }) ∧
    (resolver key = none →
      handle_query sfx ttl resolver qn qlen .Other
        = { rcode := .NXDomain, authoritative := false, answers := [], truncated := false }) := by
  constructor
  · intro resp h
    simp [handle_query, hstrip, h, apply_size_limit]
  · intro h
    simp [handle_query, hstrip, h]

/-- Witness for the amended C4 at concrete inputs: a TXT-like query for
a resolving name gets `NoError` and no answers; for a missing name it
gets `NXDomain`. -/
theorem claim_C4_amended_witness :
    handle_query [] 60 (fun s => if s = "web".data then some ⟨[⟨1⟩], []⟩ else none)
        "web".data 3 .Other
      = { rcode := .NoError, authoritative := true, answers := [], truncated := false } ∧
    handle_query [] 60 (fun _ => none) "web".data 3 .Other
      = { rcode := .NXDomain, authoritative := false, answers := [], truncated := false } :=
  ⟨(claim_C4_amended [] 60 (fun s => if s = "web".data then some ⟨[⟨1⟩], []⟩ else none)
      "web".data 3 "web".data (by decide)).1 ⟨[⟨1⟩], []⟩ (by decide),
   (claim_C4_amended [] 60 (fun _ => none) "web".data 3 "web".data (by decide)).2 rfl⟩

theorem strip_suffix_self (sfx : Str) (hne : sfx ≠ []) :
    strip_suffix sfx sfx = some [] := by
  unfold strip_suffix
  rw [if_neg hne, if_pos (List.isSuffixOf_iff_suffix.mpr (List.suffix_refl sfx))]
  simp

/-- Counterexample to claim C5: with suffix `.docker`, a query for
`.docker` itself is not refused; `strip_suffix` yields the empty
remainder, the resolver is consulted with the empty name (a resolver
entry for the empty name changes the outcome, so the lookup really
happens), and with no such entry the response is `NXDomain`, not
`Refused`. -/
theorem claim_C5_counterexample :
    strip_suffix ".docker".data ".docker".data = some [] ∧
    (handle_query ".docker".data 60 (fun _ => none) ".docker".data 7 .A).rcode = .NXDomain ∧
    (handle_query ".docker".data 60 (fun _ => none) ".docker".data 7 .A).rcode ≠ .Refused ∧
    (handle_query ".docker".data 60 (fun s => if s = [] then some ⟨[⟨9⟩], []⟩ else none)
        ".docker".data 7 .A).rcode = .NoError := by
  decide

/-- Claim C5 as amended: when a non-empty suffix is configured and the
normalized query name equals the suffix, stripping succeeds with the
empty remainder; the resolver is consulted with the empty name, and
the response is `NXDomain` when the resolver has no entry for it
(`NoError` if it does) — the query is not refused. -/
theorem claim_C5_amended (sfx : Str) (ttl : Nat) (resolver : Str → Option DnsResponse)
    (qn : Str) (qlen : Nat) (qt : QueryType)
    (hne : sfx ≠ []) (hqn : normalize_domain qn = sfx) :
    strip_suffix sfx (normalize_domain qn) = some [] ∧
    (resolver [] = none →
      handle_query sfx ttl resolver qn qlen qt
        = { rcode := .NXDomain, authoritative := false, answers := [], truncated := false }) ∧
    (∀ resp, resolver [] = some resp →
      (handle_query sfx ttl resolver qn qlen qt).rcode = .NoError) := by
  have hs : strip_suffix sfx (normalize_domain qn) = some [] := by
    rw [hqn]; exact strip_suffix_self sfx hne
  refine ⟨hs, ?_, ?_⟩
  · intro h
    simp [handle_query, hs, h]
  · intro resp h
    simp [handle_query, hs, h]

/-- Witness for the amended C5 at a concrete input: suffix `.docker`,
query name `.docker.` (normalizing to `.docker`), empty resolver. -/
theorem claim_C5_amended_witness :
    strip_suffix ".docker".data (normalize_domain ".docker.".data) = some [] ∧
    handle_query ".docker".data 60 (fun _ => none) ".docker.".data 8 .A
      = { rcode := .NXDomain, authoritative := false, answers := [], truncated := false } :=
  have h := claim_C5_amended ".docker".data 60 (fun _ => none) ".docker.".data 8 .A
    (by decide) (by decide)
  ⟨h.1, h.2.1 rfl⟩

/-- The spec's description of the mapping built by a refresh ("for each
record, construct one shared response and insert each of the record's
names pointing to that response; later names win on collision"),
written as a direct recursion: a later record's entry takes priority
over earlier records. -/
def lookupSpec (infos : List NetworkInfo) (name : Str) : Option DnsResponse :=
  match infos with
  | [] => none
  | info :: rest =>
    match lookupSpec rest name with
    | some r => some r
    | none =>
      if name ∈ info.names then some ⟨info.ipv4_addresses, info.ipv6_addresses⟩ else none

theorem insertNames_apply (r : DnsResponse) :
    ∀ (ns : List Str) (m : Mapping) (k : Str),
      (ns.foldl (fun acc name => fun x => if x = name then some r else acc x) m) k
        = if k ∈ ns then some r else m k := by
  intro ns
  induction ns with
  | nil => intro m k; simp
  | cons n ns ih =>
    intro m k
    simp only [List.foldl_cons]
    rw [ih]
    by_cases hk : k ∈ ns <;> by_cases hkn : k = n <;> simp [hk, hkn]

theorem insertInfo_apply (m : Mapping) (info : NetworkInfo) (k : Str) :
    insertInfo m info k
      = if k ∈ info.names then some ⟨info.ipv4_addresses, info.ipv6_addresses⟩ else m k := by
  unfold insertInfo
  exact insertNames_apply ⟨info.ipv4_addresses, info.ipv6_addresses⟩ info.names m k

theorem lookupSpec_nil (k : Str) : lookupSpec [] k = none := rfl

theorem lookupSpec_cons (info : NetworkInfo) (rest : List NetworkInfo) (k : Str) :
    lookupSpec (info :: rest) k
      = match lookupSpec rest k with
        | some r => some r
        | none =>
          if k ∈ info.names then some ⟨info.ipv4_addresses, info.ipv6_addresses⟩
          else none := rfl

theorem foldl_insertInfo_apply :
    ∀ (infos : List NetworkInfo) (m : Mapping) (k : Str),
      (infos.foldl insertInfo m) k = (lookupSpec infos k).or (m k) := by
  intro infos
  induction infos with
  | nil => intro m k; simp [lookupSpec_nil]
  | cons info rest ih =>
    intro m k
    simp only [List.foldl_cons]
    rw [ih, lookupSpec_cons]
    cases h : lookupSpec rest k with
    | some r => simp
    | none =>
      rw [insertInfo_apply]
      by_cases hk : k ∈ info.names <;> simp [hk]

theorem fetch_and_build_mappings_eq (infos : List NetworkInfo) (k : Str) :
    fetch_and_build_mappings infos k = lookupSpec infos k := by
  unfold fetch_and_build_mappings
  rw [foldl_insertInfo_apply]
  cases lookupSpec infos k <;> simp

theorem lookupSpec_eq_none (k : Str) :
    ∀ (infos : List NetworkInfo), (∀ info ∈ infos, k ∉ info.names) →
      lookupSpec infos k = none := by
  intro infos
  induction infos with
  | nil => intro _; rfl
  | cons info rest ih =>
    intro h
    unfold lookupSpec
    rw [ih (fun i hi => h i (List.mem_cons_of_mem info hi))]
    simp [h info (List.mem_cons_self info rest)]

/-- The re-check at the top of `refresh_cache`: the fetch proceeds
unless another refresh ran less than `miss_timeout` ago. -/
def refresh_proceeds (cfg : DockerResolverConfig) (cache : CachedNetworkData)
    (now : Nat) : Bool :=
  match cache.last_refresh with
  | some t => cfg.miss_timeout ≤ now - t
  | none => true

/-- Claim C7: a successful refresh (one whose re-check passes and whose
fetch returns records) replaces the whole mapping at once with the one
built from the returned records and stamps `last_refresh`; the built
mapping maps every name of a record to that record's response, with
the later record winning when two records share a name (`lookupSpec`
is the spec-side later-wins description); and a name carried by no
returned record no longer resolves. -/
theorem claim_C7 (cfg : DockerResolverConfig) (cache : CachedNetworkData) (now : Nat)
    (infos : List NetworkInfo) (hp : refresh_proceeds cfg cache now = true) :
    refresh_cache cfg cache now (some infos)
      = ({ mappings := fetch_and_build_mappings infos, last_refresh := some now }, true) ∧
    (∀ name, fetch_and_build_mappings infos name = lookupSpec infos name) ∧
    (∀ name, (∀ info ∈ infos, name ∉ info.names) →
      fetch_and_build_mappings infos name = none) := by
  refine ⟨?_, fun name => fetch_and_build_mappings_eq infos name, ?_⟩
  · obtain ⟨m, lr⟩ := cache
    cases lr with
    | none => rfl
    | some t =>
      have hpt : cfg.miss_timeout ≤ now - t := of_decide_eq_true hp
      simp only [refresh_cache, refresh_fetch]
      rw [if_neg (by omega)]
  · intro name h
    rw [fetch_and_build_mappings_eq]
    exact lookupSpec_eq_none name infos h

/-- Witness for C7 at a concrete input: two records both named `web`;
after a refresh from a never-refreshed cache the mapping is the
freshly built one, and `web` maps to the second (later) record's
response. -/
theorem claim_C7_witness :
    refresh_cache ⟨60, 5, 5⟩ CachedNetworkData.new 7
        (some [⟨["web".data], [⟨1⟩], []⟩, ⟨["web".data], [⟨2⟩], []⟩])
      = ({ mappings := fetch_and_build_mappings
              [⟨["web".data], [⟨1⟩], []⟩, ⟨["web".data], [⟨2⟩], []⟩],
           last_refresh := some 7 }, true) ∧
    fetch_and_build_mappings [⟨["web".data], [⟨1⟩], []⟩, ⟨["web".data], [⟨2⟩], []⟩]
        "web".data
      = some ⟨[⟨2⟩], []⟩ :=
  have h := claim_C7 ⟨60, 5, 5⟩ CachedNetworkData.new 7
    [⟨["web".data], [⟨1⟩], []⟩, ⟨["web".data], [⟨2⟩], []⟩] (by decide)
  ⟨h.1, by rw [h.2.1 "web".data]; decide⟩

/-- The provider contract of the spec: a record carries at least one
address (`list_containers_network_info` filters out the rest). -/
def goodInfo (info : NetworkInfo) : Prop :=
  info.ipv4_addresses ≠ [] ∨ info.ipv6_addresses ≠ []

instance (info : NetworkInfo) : Decidable (goodInfo info) := by
  unfold goodInfo; infer_instance

/-- A fetch outcome respecting the provider contract: if it succeeded,
every returned record has at least one address. -/
def goodFetch : Option (List NetworkInfo) → Prop
  | none => True
  | some infos => ∀ info ∈ infos, goodInfo info

instance (fetch : Option (List NetworkInfo)) : Decidable (goodFetch fetch) := by
  cases fetch <;> unfold goodFetch <;> infer_instance

/-- Every response referenced from a mapping has at least one
address. -/
def goodMapping (m : Mapping) : Prop :=
  ∀ k r, m k = some r → r.ipv4_addresses ≠ [] ∨ r.ipv6_addresses ≠ []

theorem lookupSpec_good :
    ∀ (infos : List NetworkInfo) (k : Str) (r : DnsResponse),
      (∀ info ∈ infos, goodInfo info) → lookupSpec infos k = some r →
      r.ipv4_addresses ≠ [] ∨ r.ipv6_addresses ≠ [] := by
  intro infos
  induction infos with
  | nil => intro k r _ h; simp [lookupSpec_nil] at h
  | cons info rest ih =>
    intro k r hg h
    rw [lookupSpec_cons] at h
    cases hr : lookupSpec rest k with
    | some r2 =>
      rw [hr] at h
      cases h
      exact ih k r (fun i hi => hg i (List.mem_cons_of_mem info hi)) hr
    | none =>
      rw [hr] at h
      by_cases hk : k ∈ info.names
      · rw [if_pos hk] at h
        cases h
        exact hg info (List.mem_cons_self info rest)
      · rw [if_neg hk] at h
        cases h

theorem fetch_and_build_mappings_good (infos : List NetworkInfo)
    (hg : ∀ info ∈ infos, goodInfo info) :
    goodMapping (fetch_and_build_mappings infos) := by
  intro k r h
  rw [fetch_and_build_mappings_eq] at h
  exact lookupSpec_good infos k r hg h

theorem refresh_fetch_good (cache : CachedNetworkData) (now : Nat)
    (fetch : Option (List NetworkInfo)) (hm : goodMapping cache.mappings)
    (hf : goodFetch fetch) :
    goodMapping (refresh_fetch cache now fetch).1.mappings := by
  cases fetch with
  | none => exact hm
  | some infos => exact fetch_and_build_mappings_good infos hf

theorem refresh_cache_good (cfg : DockerResolverConfig) (cache : CachedNetworkData)
    (now : Nat) (fetch : Option (List NetworkInfo)) (hm : goodMapping cache.mappings)
    (hf : goodFetch fetch) :
    goodMapping (refresh_cache cfg cache now fetch).1.mappings := by
  obtain ⟨m, lr⟩ := cache
  cases lr with
  | none => exact refresh_fetch_good ⟨m, none⟩ now fetch hm hf
  | some t =>
    simp only [refresh_cache]
    by_cases h : now - t < cfg.miss_timeout
    · rw [if_pos h]; exact hm
    · rw [if_neg h]; exact refresh_fetch_good ⟨m, some t⟩ now fetch hm hf

theorem resolve_async_good (cfg : DockerResolverConfig) (cache : CachedNetworkData)
    (now : Nat) (fetch : Option (List NetworkInfo)) (domain : Str)
    (hm : goodMapping cache.mappings) (hf : goodFetch fetch) :
    goodMapping (resolve_async cfg cache now fetch domain).2.1.mappings ∧
    (∀ r, (resolve_async cfg cache now fetch domain).1 = some r →
      r.ipv4_addresses ≠ [] ∨ r.ipv6_addresses ≠ []) := by
  have hg := refresh_cache_good cfg cache now fetch hm hf
  unfold resolve_async get_refreshed_cache_entry read_cache
  cases hmd : cache.mappings domain <;>
    cases h1 : cache.is_older_than now cfg.hit_timeout <;>
      cases h2 : cache.is_older_than now cfg.miss_timeout <;>
        simp only [hmd, h1, h2]
  case none.false.false => exact ⟨hm, fun r h => by cases h⟩
  case none.false.true => exact ⟨hg, fun r h => hg domain r h⟩
  case none.true.false => exact ⟨hg, fun r h => hg domain r h⟩
  case none.true.true => exact ⟨hg, fun r h => hg domain r h⟩
  case some.false.false =>
    exact ⟨hm, fun r h => by cases h; exact hm domain _ hmd⟩
  case some.false.true =>
    exact ⟨hm, fun r h => by cases h; exact hm domain _ hmd⟩
  case some.true.false => exact ⟨hg, fun r h => hg domain r h⟩
  case some.true.true => exact ⟨hg, fun r h => hg domain r h⟩

theorem runResolves_good (cfg : DockerResolverConfig) :
    ∀ (steps : List ResolveStep) (init : CachedNetworkData),
      goodMapping init.mappings → (∀ s ∈ steps, goodFetch s.fetch) →
      goodMapping (runResolves cfg init steps).mappings := by
  intro steps
  induction steps with
  | nil => intro init hm _; exact hm
  | cons s rest ih =>
    intro init hm hs
    simp only [runResolves, List.foldl_cons]
    exact ih ((resolve_async cfg init s.now s.fetch s.domain).2.1)
      ((resolve_async_good cfg init s.now s.fetch s.domain hm
        (hs s (List.mem_cons_self s rest))).1)
      (fun x hx => hs x (List.mem_cons_of_mem s hx))

/-- Claim C8: starting from the empty cache, under the provider
contract that every record of a successful fetch has at least one
address, after any sequence of resolves every response referenced from
the cache mapping has at least one address, and a further `resolve`
never returns a response whose IPv4 and IPv6 lists are both empty. -/
theorem claim_C8 (cfg : DockerResolverConfig) (steps : List ResolveStep)
    (hsteps : ∀ s ∈ steps, goodFetch s.fetch) :
    goodMapping (runResolves cfg CachedNetworkData.new steps).mappings ∧
    ∀ (now : Nat) (fetch : Option (List NetworkInfo)) (domain : Str) (r : DnsResponse),
      goodFetch fetch →
      (resolve_async cfg (runResolves cfg CachedNetworkData.new steps)
          now fetch domain).1 = some r →
      r.ipv4_addresses ≠ [] ∨ r.ipv6_addresses ≠ [] := by
  have hm : goodMapping (CachedNetworkData.new).mappings := by
    intro k r h
    simp [CachedNetworkData.new] at h
  have hrun := runResolves_good cfg steps CachedNetworkData.new hm hsteps
  exact ⟨hrun, fun now fetch domain r hf h =>
    (resolve_async_good cfg _ now fetch domain hrun hf).2 r h⟩

/-- Witness for C8 at a concrete input: populate the cache with one
good record, then resolve it; the returned response has an address. -/
theorem claim_C8_witness :
    (⟨[⟨1⟩], []⟩ : DnsResponse).ipv4_addresses ≠ [] ∨
      (⟨[⟨1⟩], []⟩ : DnsResponse).ipv6_addresses ≠ [] :=
  (claim_C8 ⟨60, 5, 5⟩ [⟨0, some [⟨["web".data], [⟨1⟩], []⟩], "web".data⟩]
      (by decide)).2
    0 none "web".data ⟨[⟨1⟩], []⟩ trivial (by decide)

/-- Claim C9: `get_names` maps every name reported by the runtime
through `strip_prefix_sane "/"`; when the name starts with the path
separator, the result is exactly the name with that one leading
separator removed (so every other character, including letter case, is
preserved verbatim — no other rewriting); a name that does not start
with the separator is returned unchanged. -/
theorem claim_C9 (n : Str) (container : ContainerSummary) (ns : List Str) :
    (("/".data).isPrefixOf n = true → '/' :: strip_prefix_sane n "/".data = n) ∧
    (("/".data).isPrefixOf n = false → strip_prefix_sane n "/".data = n) ∧
    (container.names = some ns →
      get_names container = ns.map (fun name => strip_prefix_sane name "/".data)) ∧
    strip_prefix_sane "/web".data "/".data = "web".data := by
  refine ⟨?_, ?_, ?_, by decide⟩
  · intro h
    rcases List.isPrefixOf_iff_prefix.mp h with ⟨t, ht⟩
    have hn : n = '/' :: t := by rw [← ht]; rfl
    subst hn
    simp [strip_prefix_sane, h]
  · intro h
    simp [strip_prefix_sane, h]
  · intro h
    simp [get_names, h]

/-- Witness for C9 at concrete inputs: the docker name `/web` becomes
`web`, and a separator-free name is unchanged. -/
theorem claim_C9_witness :
    '/' :: strip_prefix_sane "/web".data "/".data = "/web".data ∧
    strip_prefix_sane "web".data "/".data = "web".data :=
  ⟨(claim_C9 "/web".data ⟨none, none⟩ []).1 (by decide),
   (claim_C9 "web".data ⟨none, none⟩ []).2.1 (by decide)⟩

/-- The endpoint map actually walked by `get_ip_addresses`: empty when
either optional layer is absent. -/
def container_networks (container : ContainerSummary) : List (Str × EndpointSettings) :=
  match container.network_settings with
  | none => []
  | some settings =>
    match settings.networks with
    | none => []
    | some networks_data => networks_data

/-- The IPv4 address one endpoint contributes, if any:
`endpoint.ip_address.as_deref().and_then(parse_ipv4)`. -/
def endpoint_v4 (std_parse_v4 : Str → Option Ipv4Addr)
    (endpointEntry : Str × EndpointSettings) : Option Ipv4Addr :=
  endpointEntry.2.ip_address.bind (parse_ipv4 std_parse_v4)

/-- The IPv6 address one endpoint contributes, if any:
`endpoint.global_ipv6_address.as_deref().and_then(parse_ipv6)`. -/
def endpoint_v6 (std_parse_v6 : Str → Option Ipv6Addr)
    (endpointEntry : Str × EndpointSettings) : Option Ipv6Addr :=
  endpointEntry.2.global_ipv6_address.bind (parse_ipv6 std_parse_v6)

theorem get_ip_addresses_loop_eq (std_parse_v4 : Str → Option Ipv4Addr)
    (std_parse_v6 : Str → Option Ipv6Addr) :
    ∀ (nets : List (Str × EndpointSettings)),
      get_ip_addresses_loop std_parse_v4 std_parse_v6 nets
        = (nets.filterMap (endpoint_v4 std_parse_v4),
           nets.filterMap (endpoint_v6 std_parse_v6)) := by
  intro nets
  induction nets with
  | nil => rfl
  | cons e rest ih =>
    unfold get_ip_addresses_loop
    rw [ih]
    unfold endpoint_v4 endpoint_v6
    cases h4 : e.2.ip_address.bind (parse_ipv4 std_parse_v4) <;>
      cases h6 : e.2.global_ipv6_address.bind (parse_ipv6 std_parse_v6) <;>
        simp [List.filterMap_cons, endpoint_v4, endpoint_v6, h4, h6]

theorem get_ip_addresses_eq (std_parse_v4 : Str → Option Ipv4Addr)
    (std_parse_v6 : Str → Option Ipv6Addr) (container : ContainerSummary) :
    get_ip_addresses std_parse_v4 std_parse_v6 container
      = ((container_networks container).filterMap (endpoint_v4 std_parse_v4),
         (container_networks container).filterMap (endpoint_v6 std_parse_v6)) := by
  obtain ⟨cnames, ns⟩ := container
  cases ns with
  | none => rfl
  | some settings =>
    obtain ⟨nets⟩ := settings
    cases nets with
    | none => rfl
    | some networks_data =>
      exact get_ip_addresses_loop_eq std_parse_v4 std_parse_v6 networks_data

theorem collect_network_infos_good (std_parse_v4 : Str → Option Ipv4Addr)
    (std_parse_v6 : Str → Option Ipv6Addr) :
    ∀ (cs : List ContainerSummary),
      ∀ info ∈ collect_network_infos std_parse_v4 std_parse_v6 cs,
        info.ipv4_addresses ≠ [] ∨ info.ipv6_addresses ≠ [] := by
  intro cs
  induction cs with
  | nil => intro info h; cases h
  | cons c rest ih =>
    intro info h
    unfold collect_network_infos at h
    by_cases hc : (get_ip_addresses std_parse_v4 std_parse_v6 c).1 ≠ [] ∨
        (get_ip_addresses std_parse_v4 std_parse_v6 c).2 ≠ []
    · rw [if_pos hc] at h
      rcases List.mem_cons.mp h with h1 | h2
      · subst h1; exact hc
      · exact ih info h2
    · rw [if_neg hc] at h
      exact ih info h

/-- Claim C10: the provider never fails because of a malformed or
empty address string.  The `parse_ipv4`/`parse_ipv6` wrappers reject
the empty string up front; `get_ip_addresses` collects exactly the
addresses that parse, silently dropping the rest (stated for every
standard library parser); `list_containers_network_info` returns `Ok`
on every successful container listing, with only containers having at
least one parsed address in it; and a container, all of whose address
strings fail to parse, contributes empty lists and is excluded from
the inventory entirely. -/
theorem claim_C10 (std_parse_v4 : Str → Option Ipv4Addr)
    (std_parse_v6 : Str → Option Ipv6Addr) (container : ContainerSummary)
    (cs : List ContainerSummary) :
    parse_ipv4 std_parse_v4 [] = none ∧
    parse_ipv6 std_parse_v6 [] = none ∧
    get_ip_addresses std_parse_v4 std_parse_v6 container
      = ((container_networks container).filterMap (endpoint_v4 std_parse_v4),
         (container_networks container).filterMap (endpoint_v6 std_parse_v6)) ∧
    (list_containers_network_info std_parse_v4 std_parse_v6 (Except.ok cs)
        = Except.ok (collect_network_infos std_parse_v4 std_parse_v6 cs) ∧
      ∀ info ∈ collect_network_infos std_parse_v4 std_parse_v6 cs,
        info.ipv4_addresses ≠ [] ∨ info.ipv6_addresses ≠ []) ∧
    ((∀ e ∈ container_networks container,
        endpoint_v4 std_parse_v4 e = none ∧ endpoint_v6 std_parse_v6 e = none) →
      get_ip_addresses std_parse_v4 std_parse_v6 container = ([], []) ∧
      list_containers_network_info std_parse_v4 std_parse_v6 (Except.ok [container])
        = Except.ok []) := by
  refine ⟨rfl, rfl, get_ip_addresses_eq std_parse_v4 std_parse_v6 container,
    ⟨rfl, collect_network_infos_good std_parse_v4 std_parse_v6 cs⟩, ?_⟩
  intro hall
  have h4 : (container_networks container).filterMap (endpoint_v4 std_parse_v4) = [] :=
    List.filterMap_eq_nil_iff.mpr (fun e he => (hall e he).1)
  have h6 : (container_networks container).filterMap (endpoint_v6 std_parse_v6) = [] :=
    List.filterMap_eq_nil_iff.mpr (fun e he => (hall e he).2)
  have hg : get_ip_addresses std_parse_v4 std_parse_v6 container = ([], []) := by
    rw [get_ip_addresses_eq, h4, h6]
  refine ⟨hg, ?_⟩
  have hc : collect_network_infos std_parse_v4 std_parse_v6 [container] = [] := by
    simp [collect_network_infos, hg]
  have hlist : list_containers_network_info std_parse_v4 std_parse_v6 (Except.ok [container])
      = Except.ok (collect_network_infos std_parse_v4 std_parse_v6 [container]) := rfl
  rw [hlist, hc]

/-- Witness for C10 at a concrete input: a parser that rejects
everything leaves a one-endpoint container with empty address lists,
and that container is excluded from the inventory. -/
theorem claim_C10_witness :
    get_ip_addresses (fun _ => none) (fun _ => none)
        ⟨some ["/x".data], some ⟨some [("net".data, ⟨some "bad".data, none⟩)]⟩⟩ = ([], []) ∧
    list_containers_network_info (fun _ => none) (fun _ => none)
        (Except.ok [⟨some ["/x".data], some ⟨some [("net".data, ⟨some "bad".data, none⟩)]⟩⟩])
      = Except.ok [] :=
  (claim_C10 (fun _ => none) (fun _ => none)
      ⟨some ["/x".data], some ⟨some [("net".data, ⟨some "bad".data, none⟩)]⟩⟩ []).2.2.2.2
    (by decide)
